import Mathlib

/-!
Shallow embedding of the identifier domain model of the `imei-info` crate
(`src/wrapper/model.rs`): the `Imei` and `Tac` digit-sequence types, the Luhn
checksum engine, string/integer parsing and rendering, and the mapping from a
raw API payload to `PhoneInfo`.

Rust `u8`/`u32` digit arithmetic is modelled with `Nat` (no overflow occurs:
all sums are bounded far below `2^32`).  Fixed arrays `[u8; N]` are modelled as
`List Nat` together with explicit length hypotheses where a statement needs
them.  Rust computations that can panic (out-of-bounds indexing, `unwrap`) are
modelled with the `PanicOr` outcome type.
-/

namespace ImeiInfo

/-- The error enum `ImeiWrapperError` of `model.rs`. -/
inductive ImeiWrapperError where
  | ValueOutOfRange
  | CannotParseDigits
  | ChecksumDoesNotMatch
deriving DecidableEq, Repr

/-- Outcome of a Rust computation that may panic (index out of bounds,
`unwrap` on an error).  `.panicked` is a non-returning control-flow outcome,
distinct from any returned value. -/
inductive PanicOr (α : Type) where
  | ok : α → PanicOr α
  | panicked : PanicOr α
deriving DecidableEq, Repr

/-- One iteration of the loop body of `luhn_checksum` (`model.rs` lines
273-287): the contribution of the digit at 0-based index `i`. -/
def luhn_step (i d : Nat) : Nat :=
  if i % 2 ≠ 0 then
    let double_digit := d * 2
    if double_digit < 10 then double_digit else 1 + (double_digit - 10)
  else d

/-- The running sum of the `luhn_checksum` loop, starting at index `i`. -/
def luhn_sum (i : Nat) : List Nat → Nat
  | [] => 0
  | d :: ds => luhn_step i d + luhn_sum (i + 1) ds

/-- Rust `luhn_checksum` (`model.rs` lines 271-295): fold the digits with
`luhn_step`, then return `10 - (sum % 10)`, replacing `10` with `0`. -/
def luhn_checksum (digits : List Nat) : Nat :=
  let c := 10 - luhn_sum 0 digits % 10
  if c = 10 then 0 else c

/-- The `Imei` struct: 15 decimal digits stored individually. -/
structure Imei where
  digits : List Nat
deriving DecidableEq, Repr

/-- The `Tac` struct: 8 decimal digits stored individually. -/
structure Tac where
  digits : List Nat
deriving DecidableEq, Repr

/-- Rust `Imei::without_check_digit`: digits 1-14. -/
def Imei.without_check_digit (m : Imei) : List Nat := m.digits.take 14

/-- Rust `Imei::check_digit`: digit 15.  The Rust index `self.digits[14]` is total
because the array has exactly 15 slots; `getD` with default `0` agrees with it
whenever the modelled list has length 15. -/
def Imei.check_digit (m : Imei) : Nat := m.digits.getD 14 0

/-- Rust `Imei::is_valid`: the check digit equals the Luhn checksum of the first
14 digits. -/
def Imei.is_valid (m : Imei) : Bool :=
  luhn_checksum m.without_check_digit == m.check_digit

/-- Rust `Imei::type_allocation_code`: digits 1-8. -/
def Imei.type_allocation_code (m : Imei) : List Nat := m.digits.take 8

/-- Rust `Tac::is_valid` (`model.rs` line 123): constantly `true`; it exists only
so the integer-conversion macro applies to `Tac`. -/
def Tac.is_valid (_ : Tac) : Bool := true

/-- Rust `impl From<Tac> for Imei` (`model.rs` lines 128-138): start from 15 zero
digits, copy the 8 TAC digits into slots 1-8, and set slot 15 to
`luhn_checksum(&tac.digits)`. -/
def Imei.from_tac (tac : Tac) : Imei :=
  let imei_digits := List.replicate 15 0
  let imei_digits := tac.digits ++ imei_digits.drop tac.digits.length
  ⟨imei_digits.set 14 (luhn_checksum tac.digits)⟩

/-- Rust `impl From<Imei> for Tac` (`model.rs` lines 140-146). -/
def Tac.from_imei (m : Imei) : Tac := ⟨m.type_allocation_code⟩

/-- Rust `char::to_digit(10)`: `some` of the digit value for `'0'..='9'`, else
`none`. -/
def char_to_digit (c : Char) : Option Nat :=
  if '0' ≤ c ∧ c ≤ '9' then some (c.toNat - '0'.toNat) else none

/-- The loop of `string_to_digits` (`model.rs` lines 258-269): `i` is the
enumeration index, `digits` the accumulator array (length `N` throughout).
The Rust write `digits[i] = digit` panics when `i ≥ N`; there is no length
check anywhere. -/
def string_to_digits_go (N : Nat) : Nat → List Nat → List Char → PanicOr (Option (List Nat))
  | _, digits, [] => .ok (some digits)
  | i, digits, c :: cs =>
    match char_to_digit c with
    | some d =>
      if i < N then string_to_digits_go N (i + 1) (digits.set i d) cs else .panicked
    | none => .ok none

/-- Rust `string_to_digits::<N>` (`model.rs` lines 258-269). -/
def string_to_digits (N : Nat) (s : List Char) : PanicOr (Option (List Nat)) :=
  string_to_digits_go N 0 (List.replicate N 0) s

/-- Rust `impl FromStr for Imei` (`model.rs` lines 206-220). -/
def Imei.from_str (s : List Char) : PanicOr (Except ImeiWrapperError Imei) :=
  match string_to_digits 15 s with
  | .panicked => .panicked
  | .ok none => .ok (.error .CannotParseDigits)
  | .ok (some digits) =>
    let imei : Imei := ⟨digits⟩
    if imei.is_valid then .ok (.ok imei) else .ok (.error .ChecksumDoesNotMatch)

/-- Rust `impl FromStr for Tac` (`model.rs` lines 222-230). -/
def Tac.from_str (s : List Char) : PanicOr (Except ImeiWrapperError Tac) :=
  match string_to_digits 8 s with
  | .panicked => .panicked
  | .ok none => .ok (.error .CannotParseDigits)
  | .ok (some digits) => .ok (.ok ⟨digits⟩)

/-- Decimal rendering of one digit, `u8::to_string` on a digit value. -/
def digit_chars (d : Nat) : List Char := (Nat.repr d).data

/-- Rust `impl ToString for Imei` (`model.rs` lines 246-250): concatenate the
decimal rendering of each digit. -/
def Imei.to_string (m : Imei) : List Char := m.digits.flatMap digit_chars

/-- Rust `impl ToString for Tac` (`model.rs` lines 252-256). -/
def Tac.to_string (t : Tac) : List Char := t.digits.flatMap digit_chars

/-- The digit-extraction loop of the `impl_int_to_digits` macro (`model.rs`
lines 159-167) on a non-negative value, with `k` slots still to fill: the loop
runs `i` from `k-1` down to `0`, writing `val % 10` into slot `i` and dividing
`val` by 10, and fails with `ValueOutOfRange` when slot `0` is reached with
`val > 9` still pending. -/
def int_to_digits_aux : Nat → Nat → Except ImeiWrapperError (List Nat)
  | 0, _ => .ok []
  | 1, v => if 9 < v then .error .ValueOutOfRange else .ok [v % 10]
  | k + 2, v =>
    match int_to_digits_aux (k + 1) (v / 10) with
    | .ok ds => .ok (ds ++ [v % 10])
    | .error e => .error e

/-- Rust `impl TryFrom<integer> for Tac` (generated by `impl_int_to_digits`,
`model.rs` lines 148-179 and 199): reject negative input, extract 8 digits,
then run the (trivial) `Tac::is_valid` check.  All source integer widths share
this body; the width only bounds the representable inputs. -/
def Tac.try_from_int (val : Int) : Except ImeiWrapperError Tac :=
  if val < 0 then .error .ValueOutOfRange
  else
    match int_to_digits_aux 8 val.toNat with
    | .error e => .error e
    | .ok digits =>
      let t : Tac := ⟨digits⟩
      if t.is_valid then .ok t else .error .ChecksumDoesNotMatch

/-- Rust `impl TryFrom<integer> for Imei` (generated by `impl_int_to_digits`,
`model.rs` lines 148-179 and 198): reject negative input, extract 15 digits,
then validate the Luhn check digit. -/
def Imei.try_from_int (val : Int) : Except ImeiWrapperError Imei :=
  if val < 0 then .error .ValueOutOfRange
  else
    match int_to_digits_aux 15 val.toNat with
    | .error e => .error e
    | .ok digits =>
      let m : Imei := ⟨digits⟩
      if m.is_valid then .ok m else .error .ChecksumDoesNotMatch

/-- Rust `impl From<Imei/Tac> for integer` (the `impl_digits_to_int` macro,
`model.rs` lines 181-196): sum each digit times 10 to its positional power,
least-significant digit first over the reversed digit list. -/
def digits_to_int (digits : List Nat) : Nat :=
  (digits.reverse.enum.map fun p => p.2 * 10 ^ p.1).sum

/-- The Rust integer types appearing in the macro instantiations at
`model.rs` lines 198-204. -/
inductive RustIntType where
  | i32 | u32 | i64 | u64 | i128 | u128 | isize | usize
deriving DecidableEq, Repr

/-- Bit width of each integer type; `ptr_width` is the platform pointer width
(for `isize`/`usize`). -/
def RustIntType.width (t : RustIntType) (ptr_width : Nat) : Nat :=
  match t with
  | .i32 => 32 | .u32 => 32
  | .i64 => 64 | .u64 => 64
  | .i128 => 128 | .u128 => 128
  | .isize => ptr_width | .usize => ptr_width

/-- The types `T` with `impl TryFrom<T> for Imei` (`model.rs` line 198). -/
def imei_try_from_int_impls : List RustIntType :=
  [.i32, .u32, .i64, .u64, .i128, .u128, .isize, .usize]

/-- The types `T` with `impl TryFrom<T> for Tac` (`model.rs` line 199). -/
def tac_try_from_int_impls : List RustIntType :=
  [.i32, .u32, .i64, .u64, .i128, .u128, .isize, .usize]

/-- The types `T` with `impl From<Imei> for T` (`model.rs` line 203). -/
def imei_into_int_impls : List RustIntType := [.i64, .u64, .i128, .u128]

/-- The types `T` with `impl From<Tac> for T` (`model.rs` line 201). -/
def tac_into_int_impls : List RustIntType :=
  [.i32, .u32, .i64, .u64, .i128, .u128, .isize, .usize]

/-- The raw API payload `ApiPhoneInfo` (`api.rs`): an identifier string, a
brand name, and a model name. -/
structure ApiPhoneInfo where
  imei : List Char
  brand_name : String
  model : String

/-- The domain value `PhoneInfo` (`model.rs` lines 32-37). -/
structure PhoneInfo where
  imei : Imei
  manufacturer : String
  model : String
deriving DecidableEq, Repr

/-- Rust `impl From<ApiPhoneInfo> for PhoneInfo` (`model.rs` lines 39-47): parses
the identifier with `Imei::from_str` and calls `.unwrap()` on the result, so a
parse failure panics rather than returning an error value. -/
def PhoneInfo.from_api (info : ApiPhoneInfo) : PanicOr PhoneInfo :=
  match Imei.from_str info.imei with
  | .ok (.ok imei) => .ok ⟨imei, info.brand_name, info.model⟩
  | .ok (.error _) => .panicked
  | .panicked => .panicked

instance {ε α : Type} [DecidableEq ε] [DecidableEq α] : DecidableEq (Except ε α) := fun a b =>
  match a, b with
  | .ok x, .ok y => decidable_of_iff (x = y) (by simp)
  | .error e, .error f => decidable_of_iff (e = f) (by simp)
  | .ok _, .error _ => isFalse (by simp)
  | .error _, .ok _ => isFalse (by simp)

/-- The digit value of a character, as extracted by `string_to_digits` for a
character that `char::to_digit(10)` accepts. -/
def digit_val (c : Char) : Nat := (char_to_digit c).getD 0

/-- The per-digit contribution of the classic Luhn rule as the spec words it:
an even-indexed (0-based) digit counts unchanged; an odd-indexed digit counts
as its double when the double is below 10 and as the double minus 9 otherwise. -/
def luhn_spec_step (i d : Nat) : Nat :=
  if i % 2 = 0 then d else if d * 2 < 10 then d * 2 else d * 2 - 9

/-- The spec-side Luhn running sum, starting at index `i`. -/
def luhn_spec_sum (i : Nat) : List Nat → Nat
  | [] => 0
  | d :: ds => luhn_spec_step i d + luhn_spec_sum (i + 1) ds

/-- The spec-side Luhn checksum: `(10 - (sum mod 10)) mod 10`. -/
def luhn_spec_checksum (digits : List Nat) : Nat :=
  (10 - luhn_spec_sum 0 digits % 10) % 10

/-- Positions `0..N-1` of the base-10 representation of `v`, left-padded with
zeros to width `N`; digit `i` is `v / 10 ^ (N - 1 - i) % 10`. -/
def pad_digits (N v : Nat) : List Nat :=
  (List.range N).map fun i => v / 10 ^ (N - 1 - i) % 10

theorem luhn_step_eq_spec (i d : Nat) : luhn_step i d = luhn_spec_step i d := by
  unfold luhn_step luhn_spec_step
  by_cases h : i % 2 = 0
  · rw [if_neg (by omega), if_pos h]
  · rw [if_pos h, if_neg h]
    dsimp only
    split <;> omega

theorem luhn_sum_eq_spec (l : List Nat) : ∀ i, luhn_sum i l = luhn_spec_sum i l := by
  induction l with
  | nil => intro i; rfl
  | cons d ds ih => intro i; simp [luhn_sum, luhn_spec_sum, luhn_step_eq_spec, ih]

theorem luhn_step_zero (i : Nat) : luhn_step i 0 = 0 := by
  unfold luhn_step; split <;> simp

theorem luhn_sum_replicate_zero (k : Nat) : ∀ i, luhn_sum i (List.replicate k 0) = 0 := by
  induction k with
  | zero => intro i; rfl
  | succ k ih => intro i; simp [List.replicate_succ, luhn_sum, luhn_step_zero, ih]

theorem luhn_sum_append_zeros (l : List Nat) (k : Nat) :
    ∀ i, luhn_sum i (l ++ List.replicate k 0) = luhn_sum i l := by
  induction l with
  | nil => intro i; simp [luhn_sum, luhn_sum_replicate_zero]
  | cons d ds ih => intro i; simp [luhn_sum, ih]

theorem luhn_checksum_eq (l : List Nat) :
    luhn_checksum l =
      if 10 - luhn_sum 0 l % 10 = 10 then 0 else 10 - luhn_sum 0 l % 10 := rfl

theorem luhn_checksum_append_zeros (l : List Nat) (k : Nat) :
    luhn_checksum (l ++ List.replicate k 0) = luhn_checksum l := by
  rw [luhn_checksum_eq, luhn_checksum_eq, luhn_sum_append_zeros]

/-- C1: `luhn_checksum` on a sequence of decimal digits computes the classic
Luhn rule: even-indexed digits count unchanged, odd-indexed digits count
doubled (minus 9 when the double reaches 10), and the result is
`(10 - (sum mod 10)) mod 10`; on an all-zero sequence it returns 0. -/
theorem luhn_checksum_correct (digits : List Nat) (h : ∀ d ∈ digits, d ≤ 9) :
    luhn_checksum digits = luhn_spec_checksum digits ∧
    ∀ n : Nat, luhn_checksum (List.replicate n 0) = 0 := by
  constructor
  · rw [luhn_checksum_eq, luhn_sum_eq_spec]
    unfold luhn_spec_checksum
    have hm : luhn_spec_sum 0 digits % 10 < 10 := Nat.mod_lt _ (by omega)
    split <;> omega
  · intro n
    rw [luhn_checksum_eq, luhn_sum_replicate_zero]
    decide

theorem luhn_checksum_correct_witness :
    ((∀ d ∈ [3, 5, 5, 0, 8, 6, 7, 5, 2, 3, 4, 0, 1, 3], d ≤ 9) ∧
      luhn_checksum [3, 5, 5, 0, 8, 6, 7, 5, 2, 3, 4, 0, 1, 3] =
        luhn_spec_checksum [3, 5, 5, 0, 8, 6, 7, 5, 2, 3, 4, 0, 1, 3]) ∧
    luhn_checksum (List.replicate 14 0) = 0 :=
  ⟨⟨by decide, (luhn_checksum_correct [3, 5, 5, 0, 8, 6, 7, 5, 2, 3, 4, 0, 1, 3] (by decide)).1⟩,
    (luhn_checksum_correct [] (by decide)).2 14⟩

theorem getD_append_length (A : List Nat) (c : Nat) : (A ++ [c]).getD A.length 0 = c := by
  induction A with
  | nil => rfl
  | cons a l ih => simp only [List.cons_append, List.length_cons, List.getD_cons_succ]; exact ih

/-- C2: `Imei::from(tac)` yields the 8 TAC digits, six zero digits, and a check
digit equal to the Luhn checksum of the TAC digits followed by six zeros, and
the result always passes `is_valid`. -/
theorem imei_from_tac_correct (t : Tac) (hlen : t.digits.length = 8)
    (hd : ∀ d ∈ t.digits, d ≤ 9) :
    (Imei.from_tac t).digits =
      t.digits ++ List.replicate 6 0 ++
        [luhn_checksum (t.digits ++ List.replicate 6 0)] ∧
    (Imei.from_tac t).is_valid = true := by
  have hck : luhn_checksum (t.digits ++ List.replicate 6 0) = luhn_checksum t.digits :=
    luhn_checksum_append_zeros t.digits 6
  have hdig : (Imei.from_tac t).digits =
      t.digits ++ List.replicate 6 0 ++ [luhn_checksum t.digits] := by
    simp only [Imei.from_tac]
    rw [hlen, List.set_append_right _ _ (by omega), hlen, List.append_assoc]
    rfl
  have hlen14 : (t.digits ++ List.replicate 6 0).length = 14 := by
    simp [hlen]
  have h1 : (Imei.from_tac t).without_check_digit = t.digits ++ List.replicate 6 0 := by
    unfold Imei.without_check_digit
    rw [hdig, List.take_append_of_le_length (by omega), List.take_of_length_le (by omega)]
  have h2 : (Imei.from_tac t).check_digit = luhn_checksum t.digits := by
    unfold Imei.check_digit
    rw [hdig]
    have h3 := getD_append_length (t.digits ++ List.replicate 6 0) (luhn_checksum t.digits)
    rwa [hlen14] at h3
  refine ⟨by rw [hdig, hck], ?_⟩
  simp only [Imei.is_valid, h1, h2, hck, beq_self_eq_true]

theorem imei_from_tac_correct_witness :
    (Imei.from_tac ⟨[1, 2, 3, 4, 5, 6, 7, 8]⟩).digits =
      [1, 2, 3, 4, 5, 6, 7, 8] ++ List.replicate 6 0 ++
        [luhn_checksum ([1, 2, 3, 4, 5, 6, 7, 8] ++ List.replicate 6 0)] ∧
    (Imei.from_tac ⟨[1, 2, 3, 4, 5, 6, 7, 8]⟩).is_valid = true :=
  imei_from_tac_correct ⟨[1, 2, 3, 4, 5, 6, 7, 8]⟩ (by decide) (by decide)

/-- C10: converting a `Tac` to an `Imei` and back yields the original `Tac`. -/
theorem tac_imei_tac_roundtrip (t : Tac) (hlen : t.digits.length = 8) :
    Tac.from_imei (Imei.from_tac t) = t := by
  have h : (Imei.from_tac t).type_allocation_code = t.digits := by
    unfold Imei.type_allocation_code
    simp only [Imei.from_tac]
    rw [List.take_set_of_lt _ _ (by omega)]
    rw [List.take_append_of_le_length (by omega), List.take_of_length_le (by omega)]
  unfold Tac.from_imei
  rw [h]

theorem tac_imei_tac_roundtrip_witness :
    Tac.from_imei (Imei.from_tac ⟨[3, 5, 5, 0, 8, 6, 7, 5]⟩) = ⟨[3, 5, 5, 0, 8, 6, 7, 5]⟩ :=
  tac_imei_tac_roundtrip ⟨[3, 5, 5, 0, 8, 6, 7, 5]⟩ (by decide)


theorem take_succ_set (l : List Nat) : ∀ (i d : Nat), i < l.length →
    (l.set i d).take (i + 1) = l.take i ++ [d] := by
  induction l with
  | nil => intro i d h; simp at h
  | cons a l ih =>
    intro i d h
    cases i with
    | zero => rfl
    | succ j =>
      simp only [List.set_cons_succ, List.take_succ_cons]
      rw [ih j d (by simpa using h)]
      rfl

theorem string_to_digits_go_all_digits (N : Nat) :
    ∀ (s : List Char) (i : Nat) (acc : List Nat), acc.length = N → i + s.length = N →
      (∀ c ∈ s, (char_to_digit c).isSome) →
      string_to_digits_go N i acc s = .ok (some (acc.take i ++ s.map digit_val)) := by
  intro s
  induction s with
  | nil =>
    intro i acc hacc hi _
    have hiN : i = N := by simpa using hi
    subst hiN
    rw [string_to_digits_go]
    rw [List.take_of_length_le (le_of_eq hacc)]
    simp
  | cons c cs ih =>
    intro i acc hacc hi hdig
    have hc : (char_to_digit c).isSome := hdig c (by simp)
    obtain ⟨d, hd⟩ := Option.isSome_iff_exists.mp hc
    have hiN : i < N := by
      simp only [List.length_cons] at hi
      omega
    rw [string_to_digits_go, hd]
    show (if i < N then string_to_digits_go N (i + 1) (acc.set i d) cs else .panicked) = _
    rw [if_pos hiN]
    rw [ih (i + 1) (acc.set i d) (by simpa using hacc)
      (by simp only [List.length_cons] at hi; omega)
      (fun x hx => hdig x (by simp [hx]))]
    rw [take_succ_set acc i d (by omega)]
    simp [digit_val, hd]

theorem string_to_digits_all_digits (N : Nat) (s : List Char) (hlen : s.length = N)
    (hdig : ∀ c ∈ s, (char_to_digit c).isSome) :
    string_to_digits N s = .ok (some (s.map digit_val)) := by
  unfold string_to_digits
  rw [string_to_digits_go_all_digits N s 0 (List.replicate N 0) (by simp) (by simpa using hlen)
    hdig]
  simp

theorem imei_from_str_all_digits (s : List Char) (hlen : s.length = 15)
    (hdig : ∀ c ∈ s, (char_to_digit c).isSome) :
    Imei.from_str s =
      .ok (if (Imei.mk (s.map digit_val)).is_valid then .ok ⟨s.map digit_val⟩
           else .error .ChecksumDoesNotMatch) := by
  unfold Imei.from_str
  rw [string_to_digits_all_digits 15 s hlen hdig]
  by_cases hv : (Imei.mk (s.map digit_val)).is_valid = true <;> simp [hv]

theorem tac_from_str_all_digits (s : List Char) (hlen : s.length = 8)
    (hdig : ∀ c ∈ s, (char_to_digit c).isSome) :
    Tac.from_str s = .ok (.ok ⟨s.map digit_val⟩) := by
  unfold Tac.from_str
  rw [string_to_digits_all_digits 8 s hlen hdig]

/-- C3 (code evaluation at the failing inputs): `string_to_digits` never
checks the string length, so `from_str` does not return `CannotParseDigits` on
a length mismatch: a shorter all-digit string is accepted with the trailing
slots still zero, and a longer all-digit string panics on the out-of-bounds
array write instead of returning an error. -/
theorem from_str_length_unchecked :
    Tac.from_str "1234567".toList = .ok (.ok ⟨[1, 2, 3, 4, 5, 6, 7, 0]⟩) ∧
    Tac.from_str "123456789".toList = .panicked ∧
    Imei.from_str "1234567890123456".toList = .panicked :=
  ⟨by decide, by decide, by decide⟩

/-- C4: a string of exactly 15 decimal-digit characters parses as an `Imei`
when its 15th digit equals the Luhn checksum of the first 14 and fails with
`ChecksumDoesNotMatch` otherwise; a string of exactly 8 decimal-digit
characters is always accepted as a `Tac`, with no checksum check. -/
theorem from_str_checksum_validation :
    (∀ s : List Char, s.length = 15 → (∀ c ∈ s, (char_to_digit c).isSome) →
      Imei.from_str s =
        .ok (if luhn_checksum ((s.map digit_val).take 14) = (s.map digit_val).getD 14 0
             then .ok ⟨s.map digit_val⟩ else .error .ChecksumDoesNotMatch)) ∧
    (∀ s : List Char, s.length = 8 → (∀ c ∈ s, (char_to_digit c).isSome) →
      Tac.from_str s = .ok (.ok ⟨s.map digit_val⟩)) := by
  constructor
  · intro s hlen hdig
    rw [imei_from_str_all_digits s hlen hdig]
    simp only [Imei.is_valid, Imei.without_check_digit, Imei.check_digit, beq_iff_eq]
  · intro s hlen hdig
    exact tac_from_str_all_digits s hlen hdig

theorem from_str_checksum_validation_witness :
    Imei.from_str "355086752340133".toList =
      .ok (if luhn_checksum (("355086752340133".toList.map digit_val).take 14) =
              ("355086752340133".toList.map digit_val).getD 14 0
           then .ok ⟨"355086752340133".toList.map digit_val⟩
           else .error .ChecksumDoesNotMatch) ∧
    Tac.from_str "35508675".toList = .ok (.ok ⟨"35508675".toList.map digit_val⟩) :=
  ⟨from_str_checksum_validation.1 "355086752340133".toList (by decide) (by decide),
    from_str_checksum_validation.2 "35508675".toList (by decide) (by decide)⟩

theorem digit_chars_of_le_nine (d : Nat) (h : d ≤ 9) :
    digit_chars d = [Char.ofNat (d + 48)] := by
  interval_cases d <;> decide

theorem char_to_digit_digit_char (d : Nat) (h : d ≤ 9) :
    char_to_digit (Char.ofNat (d + 48)) = some d := by
  interval_cases d <;> decide

theorem flatMap_digit_chars (l : List Nat) (h : ∀ d ∈ l, d ≤ 9) :
    l.flatMap digit_chars = l.map fun d => Char.ofNat (d + 48) := by
  induction l with
  | nil => rfl
  | cons a l ih =>
    rw [List.flatMap_cons, List.map_cons, digit_chars_of_le_nine a (h a (by simp)),
      ih (fun d hd => h d (by simp [hd]))]
    rfl

theorem map_digit_val_digit_char (l : List Nat) (h : ∀ d ∈ l, d ≤ 9) :
    (l.map fun d => Char.ofNat (d + 48)).map digit_val = l := by
  rw [List.map_map]
  have hcongr : ∀ d ∈ l, (digit_val ∘ fun d => Char.ofNat (d + 48)) d = id d := by
    intro d hd
    simp [Function.comp, digit_val, char_to_digit_digit_char d (h d hd)]
  rw [List.map_congr_left hcongr, List.map_id]

/-- C6: for a valid `Imei` (15 digits, each 0-9, matching check digit),
rendering to a string gives exactly 15 characters and re-parsing returns an
equal `Imei`; likewise for any `Tac` with 8 digits each 0-9. -/
theorem to_string_from_str_roundtrip :
    (∀ m : Imei, m.digits.length = 15 → (∀ d ∈ m.digits, d ≤ 9) → m.is_valid = true →
      m.to_string.length = 15 ∧ Imei.from_str m.to_string = .ok (.ok m)) ∧
    (∀ t : Tac, t.digits.length = 8 → (∀ d ∈ t.digits, d ≤ 9) →
      t.to_string.length = 8 ∧ Tac.from_str t.to_string = .ok (.ok t)) := by
  constructor
  · intro m hlen hd hv
    have hrender : m.to_string = m.digits.map fun d => Char.ofNat (d + 48) :=
      flatMap_digit_chars m.digits hd
    have hlen2 : m.to_string.length = 15 := by rw [hrender]; simp [hlen]
    have hdig : ∀ c ∈ m.to_string, (char_to_digit c).isSome := by
      rw [hrender]
      intro c hc
      simp only [List.mem_map] at hc
      obtain ⟨d, hdm, rfl⟩ := hc
      rw [char_to_digit_digit_char d (hd d hdm)]
      rfl
    have hmap : m.to_string.map digit_val = m.digits := by
      rw [hrender]
      exact map_digit_val_digit_char m.digits hd
    refine ⟨hlen2, ?_⟩
    rw [imei_from_str_all_digits m.to_string hlen2 hdig, hmap]
    rw [show (⟨m.digits⟩ : Imei) = m from rfl, if_pos hv]
  · intro t hlen hd
    have hrender : t.to_string = t.digits.map fun d => Char.ofNat (d + 48) :=
      flatMap_digit_chars t.digits hd
    have hlen2 : t.to_string.length = 8 := by rw [hrender]; simp [hlen]
    have hdig : ∀ c ∈ t.to_string, (char_to_digit c).isSome := by
      rw [hrender]
      intro c hc
      simp only [List.mem_map] at hc
      obtain ⟨d, hdm, rfl⟩ := hc
      rw [char_to_digit_digit_char d (hd d hdm)]
      rfl
    have hmap : t.to_string.map digit_val = t.digits := by
      rw [hrender]
      exact map_digit_val_digit_char t.digits hd
    refine ⟨hlen2, ?_⟩
    rw [tac_from_str_all_digits t.to_string hlen2 hdig, hmap]

theorem to_string_from_str_roundtrip_witness :
    ((⟨List.replicate 15 0⟩ : Imei).to_string.length = 15 ∧
      Imei.from_str (⟨List.replicate 15 0⟩ : Imei).to_string =
        .ok (.ok ⟨List.replicate 15 0⟩)) ∧
    ((⟨[1, 2, 3, 4, 5, 6, 7, 8]⟩ : Tac).to_string.length = 8 ∧
      Tac.from_str (⟨[1, 2, 3, 4, 5, 6, 7, 8]⟩ : Tac).to_string =
        .ok (.ok ⟨[1, 2, 3, 4, 5, 6, 7, 8]⟩)) :=
  ⟨to_string_from_str_roundtrip.1 ⟨List.replicate 15 0⟩ (by decide) (by decide) (by decide),
    to_string_from_str_roundtrip.2 ⟨[1, 2, 3, 4, 5, 6, 7, 8]⟩ (by decide) (by decide)⟩

/-- C7 counterexample: parsing `"003456789012345"` does not succeed: the Luhn
checksum of its first 14 digits is 2, not 5, so `Imei::from_str` rejects it
with `ChecksumDoesNotMatch`. -/
theorem leading_zero_sample_rejected :
    Imei.from_str "003456789012345".toList = .ok (.error .ChecksumDoesNotMatch) := by
  decide

/-- C7 amended: with the check digit corrected from 5 to 2 (the Luhn checksum
of the first 14 digits), parsing `"003456789012342"` succeeds, preserves the
two leading zero digits, and renders back to the identical string. -/
theorem leading_zero_preservation :
    Imei.from_str "003456789012342".toList =
      .ok (.ok ⟨[0, 0, 3, 4, 5, 6, 7, 8, 9, 0, 1, 2, 3, 4, 2]⟩) ∧
    Imei.to_string ⟨[0, 0, 3, 4, 5, 6, 7, 8, 9, 0, 1, 2, 3, 4, 2]⟩ =
      "003456789012342".toList :=
  ⟨by decide, by decide⟩


theorem int_to_digits_aux_ok (n : Nat) : ∀ v : Nat,
    int_to_digits_aux (n + 1) v =
      if v < 10 ^ (n + 1) then .ok (pad_digits (n + 1) v)
      else .error .ValueOutOfRange := by
  induction n with
  | zero =>
    intro v
    rw [int_to_digits_aux]
    by_cases h : v < 10 ^ 1
    · rw [if_neg (by omega), if_pos h]
      simp [pad_digits]
    · rw [if_pos (by omega), if_neg h]
  | succ n ih =>
    intro v
    rw [int_to_digits_aux]
    rw [ih (v / 10)]
    by_cases h : v < 10 ^ (n + 2)
    · have hdiv : v / 10 < 10 ^ (n + 1) := by
        rw [Nat.div_lt_iff_lt_mul (by omega)]
        calc v < 10 ^ (n + 2) := h
          _ = 10 ^ (n + 1) * 10 := by ring
      rw [if_pos hdiv, if_pos h]
      show Except.ok (pad_digits (n + 1) (v / 10) ++ [v % 10]) = _
      congr 1
      unfold pad_digits
      rw [show List.range (n + 1 + 1) = List.range (n + 1) ++ [n + 1] from List.range_succ (n + 1),
        List.map_append]
      congr 1
      · apply List.map_congr_left
        intro i hi
        rw [List.mem_range] at hi
        have he : n + 1 + 1 - 1 - i = (n + 1 - 1 - i) + 1 := by omega
        rw [Nat.div_div_eq_div_mul, he, pow_succ']
      · simp only [List.map_cons, List.map_nil]
        have he : n + 1 + 1 - 1 - (n + 1) = 0 := by omega
        rw [he, pow_zero, Nat.div_one]
    · have hdiv : ¬v / 10 < 10 ^ (n + 1) := by
        rw [Nat.div_lt_iff_lt_mul (by omega)]
        intro hc
        exact h (by calc v < 10 ^ (n + 1) * 10 := hc
          _ = 10 ^ (n + 2) := by ring)
      rw [if_neg hdiv, if_neg h]

theorem tac_try_from_int_eq (val : Int) :
    Tac.try_from_int val =
      if val < 0 ∨ 10 ^ 8 ≤ val then .error .ValueOutOfRange
      else .ok ⟨pad_digits 8 val.toNat⟩ := by
  unfold Tac.try_from_int
  by_cases h0 : val < 0
  · rw [if_pos h0, if_pos (Or.inl h0)]
  · rw [if_neg h0]
    have h8 := int_to_digits_aux_ok 7 val.toNat
    norm_num at h8
    rw [h8, show ((10 : Int) ^ 8 : Int) = 100000000 from by norm_num]
    by_cases hlt : val.toNat < 100000000
    · rw [if_pos hlt, if_neg (by omega)]
      rfl
    · rw [if_neg hlt, if_pos (by omega)]

theorem imei_try_from_int_eq (val : Int) :
    Imei.try_from_int val =
      if val < 0 ∨ 10 ^ 15 ≤ val then .error .ValueOutOfRange
      else if (⟨pad_digits 15 val.toNat⟩ : Imei).is_valid then .ok ⟨pad_digits 15 val.toNat⟩
      else .error .ChecksumDoesNotMatch := by
  unfold Imei.try_from_int
  by_cases h0 : val < 0
  · rw [if_pos h0, if_pos (Or.inl h0)]
  · rw [if_neg h0]
    have h15 := int_to_digits_aux_ok 14 val.toNat
    norm_num at h15
    rw [h15, show ((10 : Int) ^ 15 : Int) = 1000000000000000 from by norm_num]
    by_cases hlt : val.toNat < 1000000000000000
    · rw [if_pos hlt, if_neg (by omega)]
    · rw [if_neg hlt, if_pos (by omega)]

/-- C5: integer conversion into `Tac`/`Imei` fails with `ValueOutOfRange`
exactly when the value is negative or needs more than 8 (resp. 15) decimal
digits; shorter values are accepted left-zero-padded (for `Imei`, subject to
the Luhn check); and the three concrete examples from the spec hold. -/
theorem try_from_int_range (val : Int) :
    (Tac.try_from_int val = .error .ValueOutOfRange ↔ val < 0 ∨ 10 ^ 8 ≤ val) ∧
    (Imei.try_from_int val = .error .ValueOutOfRange ↔ val < 0 ∨ 10 ^ 15 ≤ val) ∧
    (Tac.try_from_int val = .ok ⟨pad_digits 8 val.toNat⟩ ↔ 0 ≤ val ∧ val < 10 ^ 8) ∧
    (Imei.try_from_int val = .ok ⟨pad_digits 15 val.toNat⟩ ↔
      0 ≤ val ∧ val < 10 ^ 15 ∧ (⟨pad_digits 15 val.toNat⟩ : Imei).is_valid = true) ∧
    Tac.try_from_int 12345678 = .ok ⟨[1, 2, 3, 4, 5, 6, 7, 8]⟩ ∧
    Tac.try_from_int 123456789 = .error .ValueOutOfRange ∧
    Imei.try_from_int (-1) = .error .ValueOutOfRange := by
  refine ⟨?_, ?_, ?_, ?_, by decide, by decide, by decide⟩
  · rw [tac_try_from_int_eq]
    by_cases h : val < 0 ∨ 10 ^ 8 ≤ val
    · rw [if_pos h]
      exact iff_of_true rfl h
    · rw [if_neg h]
      exact iff_of_false (by simp) h
  · rw [imei_try_from_int_eq]
    by_cases h : val < 0 ∨ 10 ^ 15 ≤ val
    · rw [if_pos h]
      exact iff_of_true rfl h
    · rw [if_neg h]
      refine iff_of_false ?_ h
      split
      · simp
      · simp
  · rw [tac_try_from_int_eq]
    by_cases h : val < 0 ∨ 10 ^ 8 ≤ val
    · rw [if_pos h]
      have hns : ¬(0 ≤ val ∧ val < 10 ^ 8) := by
        rcases h with h | h
        · rintro ⟨h0, -⟩; omega
        · rintro ⟨-, hl⟩; exact absurd hl (not_lt.mpr h)
      exact iff_of_false (by simp) hns
    · rw [if_neg h]
      push_neg at h
      exact iff_of_true rfl ⟨h.1, h.2⟩
  · rw [imei_try_from_int_eq]
    by_cases h : val < 0 ∨ 10 ^ 15 ≤ val
    · rw [if_pos h]
      have hns : ¬(0 ≤ val ∧ val < 10 ^ 15 ∧
          (⟨pad_digits 15 val.toNat⟩ : Imei).is_valid = true) := by
        rcases h with h | h
        · rintro ⟨h0, -, -⟩; omega
        · rintro ⟨-, hl, -⟩; exact absurd hl (not_lt.mpr h)
      exact iff_of_false (by simp) hns
    · rw [if_neg h]
      push_neg at h
      by_cases hv : (⟨pad_digits 15 val.toNat⟩ : Imei).is_valid = true
      · rw [if_pos hv]
        exact iff_of_true rfl ⟨h.1, h.2, hv⟩
      · rw [if_neg hv]
        refine iff_of_false (by simp) ?_
        rintro ⟨-, -, hc⟩
        exact hv hc

/-- C9 counterexample: a 32-bit integer type does support conversion to an
`Imei`: `impl TryFrom<i32> for Imei` is instantiated at `model.rs` line 198,
and the conversion succeeds on the `i32`-representable value 0. -/
theorem imei_try_from_i32_exists :
    RustIntType.i32 ∈ imei_try_from_int_impls ∧
    Imei.try_from_int 0 = .ok ⟨List.replicate 15 0⟩ :=
  ⟨by decide, by decide⟩

/-- C9 amended: the `TryFrom` (integer-to-identifier) direction is
instantiated for every listed integer width for both `Imei` and `Tac`,
including the 32-bit types; it is only the rendering direction
(`From<Imei> for T`) that is restricted to 64-bit-or-wider types, while
`Tac` renders to every listed integer type (all of width at least 32). -/
theorem int_conversion_inventory (ptr_width : Nat) :
    imei_try_from_int_impls = tac_try_from_int_impls ∧
    RustIntType.i32 ∈ imei_try_from_int_impls ∧
    (∀ t ∈ imei_into_int_impls, 64 ≤ t.width ptr_width) ∧
    (∀ t : RustIntType, t ∈ tac_into_int_impls) := by
  refine ⟨rfl, by decide, ?_, ?_⟩
  · intro t ht
    simp only [imei_into_int_impls, List.mem_cons, List.not_mem_nil, or_false] at ht
    rcases ht with rfl | rfl | rfl | rfl <;> simp [RustIntType.width]
  · intro t
    cases t <;> decide

theorem int_conversion_inventory_witness :
    64 ≤ RustIntType.width .i64 64 ∧ RustIntType.usize ∈ tac_into_int_impls :=
  ⟨(int_conversion_inventory 64).2.2.1 .i64 (by decide),
    (int_conversion_inventory 64).2.2.2 .usize⟩

/-- C8 counterexample: on a payload whose identifier is malformed, the
`PhoneInfo` mapping does not return an error value: the `unwrap` at
`model.rs` line 42 panics, a non-returning control flow. -/
theorem phone_info_from_api_panics :
    PhoneInfo.from_api ⟨"abc".toList, "Apple", "iPhone 14 Pro Max"⟩ = .panicked := by
  decide

/-- C8 amended: the mapping from a raw API payload parses the identifier with
the Identifier Model (`Imei::from_str`) and succeeds for every well-formed
payload; on a payload whose identifier fails to parse it panics (via
`unwrap`) rather than returning a `CannotParseDigits` or
`ChecksumDoesNotMatch` error value. -/
theorem phone_info_from_api_correct (info : ApiPhoneInfo) :
    (info.imei.length = 15 → (∀ c ∈ info.imei, (char_to_digit c).isSome) →
      (⟨info.imei.map digit_val⟩ : Imei).is_valid = true →
      PhoneInfo.from_api info =
        .ok ⟨⟨info.imei.map digit_val⟩, info.brand_name, info.model⟩) ∧
    (∀ e : ImeiWrapperError, Imei.from_str info.imei = .ok (.error e) →
      PhoneInfo.from_api info = .panicked) := by
  constructor
  · intro hlen hdig hv
    unfold PhoneInfo.from_api
    rw [imei_from_str_all_digits info.imei hlen hdig, if_pos hv]
  · intro e he
    unfold PhoneInfo.from_api
    rw [he]

theorem phone_info_from_api_correct_witness :
    PhoneInfo.from_api ⟨"355086752340133".toList, "Apple", "iPhone"⟩ =
      .ok ⟨⟨"355086752340133".toList.map digit_val⟩, "Apple", "iPhone"⟩ ∧
    PhoneInfo.from_api ⟨"abcdefghijklmno".toList, "Apple", "iPhone"⟩ = .panicked :=
  ⟨(phone_info_from_api_correct ⟨"355086752340133".toList, "Apple", "iPhone"⟩).1
      (by decide) (by decide) (by decide),
    (phone_info_from_api_correct ⟨"abcdefghijklmno".toList, "Apple", "iPhone"⟩).2
      .CannotParseDigits (by decide)⟩

end ImeiInfo
